import Mathlib

/-!
Shallow embedding of `src/days/day19/src/main.rs` (Advent of Code 2021,
day 19: scanner/beacon reconstruction) and proofs about it.

The Rust code works over `nalgebra::Vector3<isize>` and
`nalgebra::Matrix3<isize>`; we embed these as records of `Int`s.  The
`FxHashSet<Vector3<isize>>` holding the growing global beacon map is
embedded as a duplicate-free list (`hsInsert` adds an element only when
absent), so membership, cardinality and extension agree with the Rust
set; iteration order in the embedding is insertion order.
-/

namespace Day19

/-- A 3D integer vector, embedding `Vector3<isize>`. -/
structure V3 where
  x : Int
  y : Int
  z : Int
deriving DecidableEq

/-- Componentwise addition of vectors (`b + dist` in the Rust code). -/
def V3.add (a b : V3) : V3 :=
  ⟨a.x + b.x, a.y + b.y, a.z + b.z⟩

/-- Componentwise subtraction of vectors (`orig - dest` in the Rust code). -/
def V3.sub (a b : V3) : V3 :=
  ⟨a.x - b.x, a.y - b.y, a.z - b.z⟩

/-- The zero vector. -/
def V3.zero : V3 := ⟨0, 0, 0⟩

/-- `(s1 - s2).abs().sum()` from the Rust code: the Manhattan distance
between two vectors, as a natural number. -/
def V3.manhattan (a b : V3) : Nat :=
  (a.x - b.x).natAbs + (a.y - b.y).natAbs + (a.z - b.z).natAbs

/-- A 3x3 integer matrix, embedding `Matrix3<isize>`; fields are listed
row-major as in the `Matrix3::new` calls. -/
structure M3 where
  a : Int
  b : Int
  c : Int
  d : Int
  e : Int
  f : Int
  g : Int
  h : Int
  i : Int
deriving DecidableEq

/-- Matrix-vector multiplication (`base_transform_mtx * b`). -/
def M3.mulVec (m : M3) (v : V3) : V3 :=
  ⟨m.a * v.x + m.b * v.y + m.c * v.z,
   m.d * v.x + m.e * v.y + m.f * v.z,
   m.g * v.x + m.h * v.y + m.i * v.z⟩

/-- Matrix transpose. -/
def M3.transpose (m : M3) : M3 :=
  ⟨m.a, m.d, m.g, m.b, m.e, m.h, m.c, m.f, m.i⟩

/-- Matrix multiplication. -/
def M3.mul (p q : M3) : M3 :=
  ⟨p.a * q.a + p.b * q.d + p.c * q.g,
   p.a * q.b + p.b * q.e + p.c * q.h,
   p.a * q.c + p.b * q.f + p.c * q.i,
   p.d * q.a + p.e * q.d + p.f * q.g,
   p.d * q.b + p.e * q.e + p.f * q.h,
   p.d * q.c + p.e * q.f + p.f * q.i,
   p.g * q.a + p.h * q.d + p.i * q.g,
   p.g * q.b + p.h * q.e + p.i * q.h,
   p.g * q.c + p.h * q.f + p.i * q.i⟩

/-- The identity matrix. -/
def M3.one : M3 := ⟨1, 0, 0, 0, 1, 0, 0, 0, 1⟩

/-- Determinant of a 3x3 matrix. -/
def M3.det (m : M3) : Int :=
  m.a * (m.e * m.i - m.f * m.h)
    - m.b * (m.d * m.i - m.f * m.g)
    + m.c * (m.d * m.h - m.e * m.g)

/-- The static table `CHANGE_OF_BASIS_MATRIXES` from the Rust source:
24 change-of-basis matrices, transcribed row-major in source order. -/
def CHANGE_OF_BASIS_MATRIXES : List M3 :=
  [⟨1, 0, 0,  0, 1, 0,  0, 0, 1⟩,
   ⟨1, 0, 0,  0, -1, 0,  0, 0, -1⟩,
   ⟨1, 0, 0,  0, 0, -1,  0, 1, 0⟩,
   ⟨1, 0, 0,  0, 0, 1,  0, -1, 0⟩,
   ⟨-1, 0, 0,  0, -1, 0,  0, 0, 1⟩,
   ⟨-1, 0, 0,  0, 1, 0,  0, 0, -1⟩,
   ⟨-1, 0, 0,  0, 0, 1,  0, 1, 0⟩,
   ⟨-1, 0, 0,  0, 0, -1,  0, -1, 0⟩,
   ⟨0, -1, 0,  1, 0, 0,  0, 0, 1⟩,
   ⟨0, 1, 0,  1, 0, 0,  0, 0, -1⟩,
   ⟨0, 0, 1,  1, 0, 0,  0, 1, 0⟩,
   ⟨0, 0, -1,  1, 0, 0,  0, -1, 0⟩,
   ⟨0, 1, 0,  -1, 0, 0,  0, 0, 1⟩,
   ⟨0, -1, 0,  -1, 0, 0,  0, 0, -1⟩,
   ⟨0, 0, -1,  -1, 0, 0,  0, 1, 0⟩,
   ⟨0, 0, 1,  -1, 0, 0,  0, -1, 0⟩,
   ⟨0, 0, -1,  0, 1, 0,  1, 0, 0⟩,
   ⟨0, 0, 1,  0, -1, 0,  1, 0, 0⟩,
   ⟨0, 1, 0,  0, 0, 1,  1, 0, 0⟩,
   ⟨0, -1, 0,  0, 0, -1,  1, 0, 0⟩,
   ⟨0, 0, 1,  0, 1, 0,  -1, 0, 0⟩,
   ⟨0, 0, -1,  0, -1, 0,  -1, 0, 0⟩,
   ⟨0, 1, 0,  0, 0, -1,  -1, 0, 0⟩,
   ⟨0, -1, 0,  0, 0, 1,  -1, 0, 0⟩]

/-- A scan: the list of beacons reported by one scanner (struct `Scan`). -/
structure Scan where
  beacons : List V3
deriving DecidableEq

/-! ### The hash-set model

`FxHashSet<Vector3<isize>>` is modelled as a duplicate-free list; an
insertion appends the element when it is not already present. -/

/-- Insert one element into the set if not present. -/
def hsInsert (s : List V3) (v : V3) : List V3 :=
  if v ∈ s then s else s ++ [v]

/-- `HashSet::extend`: insert every element of a list. -/
def hsExtend (s : List V3) (vs : List V3) : List V3 :=
  vs.foldl hsInsert s

/-- Building the set from an iterator (`collect::<FxHashSet<_>>()`). -/
def hsOfList (vs : List V3) : List V3 :=
  hsExtend [] vs

/-! ### The registration engine `try_update_scan` -/

/-- Rotate every beacon of the candidate scan into the basis given by
matrix `m` (the `transformed_beacons` vector). -/
def transformBeacons (m : M3) (bs : List V3) : List V3 :=
  bs.map (fun b => m.mulVec b)

/-- The `distances_iter` of the Rust code: for every pair of a reference
point `orig` and a transformed beacon `dest` (reference-major order, as
`cartesian_product` yields), the candidate translation `orig - dest`. -/
def candidateDists (ref : List V3) (transformed : List V3) : List V3 :=
  ref.flatMap (fun orig => transformed.map (fun dest => orig.sub dest))

/-- The `overlap_count` of the Rust code: how many of the translated
beacons are already in the reference set (counted per list entry). -/
def overlapCount (ref : List V3) (translated : List V3) : Nat :=
  translated.countP (fun tv => decide (tv ∈ ref))

/-- The inner `for dist in distances_iter` loop: try each candidate
translation in order; at the first one whose overlap count reaches 12,
extend the reference set with the translated beacons and return the
translation together with the updated set. -/
def tryDists (ref : List V3) (transformed : List V3) : List V3 → Option (V3 × List V3)
  | [] => none
  | dist :: rest =>
    let translated := transformed.map (fun b => b.add dist)
    if 12 ≤ overlapCount ref translated then
      some (dist, hsExtend ref translated)
    else
      tryDists ref transformed rest

/-- The outer `for base_transform_mtx in &CHANGE_OF_BASIS_MATRIXES` loop:
try each orientation in table order. -/
def tryMatrices (ref : List V3) (beacons : List V3) : List M3 → Option (V3 × List V3)
  | [] => none
  | m :: ms =>
    let transformed := transformBeacons m beacons
    match tryDists ref transformed (candidateDists ref transformed) with
    | some r => some r
    | none => tryMatrices ref beacons ms

/-- The function `try_update_scan`: it takes the reference set and a scan
and returns the optional translation paired with the reference set after
the call (`complete_scan` is passed by mutable reference in Rust; the
embedding returns its new value). -/
def try_update_scan (ref : List V3) (scan : Scan) : Option V3 × List V3 :=
  match tryMatrices ref scan.beacons CHANGE_OF_BASIS_MATRIXES with
  | some (dist, ref2) => (some dist, ref2)
  | none => (none, ref)

/-! ### The driver `part1_2`

The Rust driver removes scan 0 as the seed, then runs
`while !scans.is_empty()` over rounds; each round iterates
`for i in (0..scans.len()).rev()`, registering `scans[i]` and deleting it
with `Vec::swap_remove` on success.  The `while` loop has no stuck
detection, so the embedding is indexed by fuel (number of rounds): `none`
means the Rust program does not return a value (it panics or the given
number of rounds did not finish the loop). -/

/-- `Vec::swap_remove(i)`: replace element `i` with the last element and
pop the last element. -/
def swapRemove (l : List Scan) (i : Nat) : List Scan :=
  match l.getLast? with
  | none => l
  | some last => (l.set i last).dropLast

/-- One round of the builder, processing indices `n-1, n-2, ..., 0` as
`for i in (0..scans.len()).rev()` does; `n` starts at the length the
vector had when the range was created.  (The index is always in bounds in
reachable states: the range counts down by one while each removal shrinks
the vector by one, so the out-of-range branch is dead.)  Returns the
updated reference set, remaining scans and recorded translations. -/
def roundGo : Nat → List V3 → List Scan → List V3 → List V3 × List Scan × List V3
  | 0, ref, scans, dists => (ref, scans, dists)
  | n + 1, ref, scans, dists =>
    match scans[n]? with
    | none => roundGo n ref scans dists
    | some s =>
      match try_update_scan ref s with
      | (some dist, ref2) => roundGo n ref2 (swapRemove scans n) (dists ++ [dist])
      | (none, _) => roundGo n ref scans dists

/-- One full round over the current remaining scans. -/
def oneRound (ref : List V3) (scans : List Scan) (dists : List V3) :
    List V3 × List Scan × List V3 :=
  roundGo scans.length ref scans dists

/-- The `while !scans.is_empty()` loop, with fuel bounding the number of
rounds; returns the final reference set and the recorded translations. -/
def loop : Nat → List V3 → List Scan → List V3 → Option (List V3 × List V3)
  | _, ref, [], dists => some (ref, dists)
  | 0, _, _, _ => none
  | fuel + 1, ref, scans, dists =>
    match oneRound ref scans dists with
    | (ref2, scans2, dists2) => loop fuel ref2 scans2 dists2

/-- `distances.iter().tuple_combinations().map(|(s1, s2)| (s1 - s2).abs().sum())`:
the Manhattan distances over all ordered-by-position pairs of recorded
translations. -/
def pairDists : List V3 → List Nat
  | [] => []
  | d :: rest => rest.map (fun e => V3.manhattan d e) ++ pairDists rest

/-- The function `part1_2`: seed the reference set with scan 0's beacons,
run the reconstruction loop, then return the number of distinct beacons
and the maximum pairwise Manhattan distance of the recorded translations.
`none` models a panic (`remove(0)` on an empty vector, `.max().unwrap()`
on an empty iterator) or an unfinished loop at the given fuel. -/
def part1_2 (fuel : Nat) (scans : List Scan) : Option (Nat × Nat) :=
  match scans with
  | [] => none
  | s0 :: rest =>
    match loop fuel (hsOfList s0.beacons) rest [] with
    | none => none
    | some (ref, dists) =>
      match (pairDists dists).max? with
      | none => none
      | some m => some (ref.length, m)

/-! ### Derived and spec-side definitions -/

/-- The list, in search order (orientation-major, then candidate
translation order), of all candidate translations whose overlap count
reaches the threshold. -/
def acceptedDists (ref : List V3) (beacons : List V3) : List V3 :=
  CHANGE_OF_BASIS_MATRIXES.flatMap (fun m =>
    (candidateDists ref (transformBeacons m beacons)).filter (fun d =>
      decide (12 ≤ overlapCount ref
        ((transformBeacons m beacons).map (fun b => b.add d)))))

/-- Modelled from the spec's Distance Aggregator wording: the maximum
Manhattan distance over all distinct unordered pairs drawn from a list
of scanner offsets (pairs indexed by positions `i < j`). -/
def specMaxPairDist (offsets : List V3) : Option Nat :=
  ((List.range offsets.length).flatMap (fun i =>
    (List.range offsets.length).filterMap (fun j =>
      if i < j then
        match offsets[i]?, offsets[j]? with
        | some a, some b => some (V3.manhattan a b)
        | _, _ => none
      else none))).max?

/-- The six signed standard basis vectors: the only integer vectors of
squared norm 1, hence the only possible columns of an integer orthogonal
3x3 matrix. -/
def unitCols : List V3 :=
  [⟨1, 0, 0⟩, ⟨-1, 0, 0⟩, ⟨0, 1, 0⟩, ⟨0, -1, 0⟩, ⟨0, 0, 1⟩, ⟨0, 0, -1⟩]

/-- Build a matrix from its three columns. -/
def M3.ofCols (u v w : V3) : M3 :=
  ⟨u.x, v.x, w.x, u.y, v.y, w.y, u.z, v.z, w.z⟩

/-- All 216 matrices whose columns are signed standard basis vectors; the
integer orthogonal matrices are among them. -/
def orthCandidates : List M3 :=
  unitCols.flatMap (fun u =>
    unitCols.flatMap (fun v =>
      unitCols.map (fun w => M3.ofCols u v w)))

/-- A generic 12-beacon point cloud used as concrete input: no two
distinct rotations/translations map it into itself, so registration
against it accepts a unique translation per scan. -/
def B0 : List V3 :=
  [⟨0, 0, 0⟩, ⟨1, 2, 3⟩, ⟨10, 4, 7⟩, ⟨2, 8, 5⟩, ⟨3, 1, 9⟩, ⟨7, 6, 2⟩,
   ⟨4, 9, 11⟩, ⟨8, 3, 6⟩, ⟨5, 7, 10⟩, ⟨9, 5, 4⟩, ⟨6, 10, 8⟩, ⟨11, 12, 1⟩]

/-- True offset of the second scanner in the three-scanner example. -/
def t1 : V3 := ⟨1000, 0, 0⟩

/-- True offset of the third scanner in the three-scanner example. -/
def t2 : V3 := ⟨1001, 0, 0⟩

/-- Three-scanner example: scanner 0 sees `B0`; scanners 1 and 2 sit at
offsets `t1` and `t2` and see the same cloud in their local frames. -/
def scansEx : List Scan :=
  [⟨B0⟩, ⟨B0.map (fun b => b.sub t1)⟩, ⟨B0.map (fun b => b.sub t2)⟩]

/-- Two-scanner example with no shared beacons at all. -/
def scansDisjoint : List Scan :=
  [⟨[⟨0, 0, 0⟩]⟩, ⟨[⟨1000, 1000, 1000⟩]⟩]

/-! ### Lemmas about the hash-set model -/

theorem mem_hsInsert (s : List V3) (w v : V3) :
    v ∈ hsInsert s w ↔ v ∈ s ∨ v = w := by
  unfold hsInsert
  by_cases h : w ∈ s
  · simp only [if_pos h]
    exact ⟨Or.inl, fun hv => hv.elim id (fun e => e ▸ h)⟩
  · simp [if_neg h]

theorem hsExtend_cons (s : List V3) (w : V3) (l : List V3) :
    hsExtend s (w :: l) = hsExtend (hsInsert s w) l := rfl

theorem mem_hsExtend (s : List V3) (l : List V3) (v : V3) :
    v ∈ hsExtend s l ↔ v ∈ s ∨ v ∈ l := by
  induction l generalizing s with
  | nil => simp [hsExtend]
  | cons w l ih =>
    rw [hsExtend_cons, ih, mem_hsInsert]
    simp [List.mem_cons, or_assoc]

theorem mem_hsOfList (l : List V3) (v : V3) : v ∈ hsOfList l ↔ v ∈ l := by
  unfold hsOfList
  rw [mem_hsExtend]
  simp

/-! ### Characterization of the registration search -/

/-- The translation returned by `tryDists` is the first candidate (in
list order) whose overlap count reaches the threshold. -/
theorem tryDists_map_fst (ref tr : List V3) (ds : List V3) :
    (tryDists ref tr ds).map Prod.fst =
      (ds.filter (fun d =>
        decide (12 ≤ overlapCount ref (tr.map (fun b => b.add d))))).head? := by
  induction ds with
  | nil => rfl
  | cons d rest ih =>
    simp only [tryDists, List.filter_cons]
    by_cases h : 12 ≤ overlapCount ref (tr.map (fun b => b.add d))
    · simp [h]
    · simp [h, ih]

theorem tryDists_eq_some {ref tr ds : List V3} {d : V3} {r2 : List V3}
    (h : tryDists ref tr ds = some (d, r2)) :
    d ∈ ds ∧ 12 ≤ overlapCount ref (tr.map (fun b => b.add d)) ∧
      r2 = hsExtend ref (tr.map (fun b => b.add d)) := by
  induction ds with
  | nil => cases h
  | cons d0 rest ih =>
    simp only [tryDists] at h
    by_cases hc : 12 ≤ overlapCount ref (tr.map (fun b => b.add d0))
    · rw [if_pos hc] at h
      obtain ⟨rfl, rfl⟩ : d0 = d ∧ hsExtend ref (tr.map (fun b => b.add d0)) = r2 := by
        simpa using h
      exact ⟨List.mem_cons_self d0 rest, hc, rfl⟩
    · rw [if_neg hc] at h
      obtain ⟨h1, h2, h3⟩ := ih h
      exact ⟨List.mem_cons_of_mem d0 h1, h2, h3⟩

theorem tryMatrices_eq_some {ref bs : List V3} {ms : List M3} {p : V3 × List V3}
    (h : tryMatrices ref bs ms = some p) :
    ∃ m, m ∈ ms ∧
      tryDists ref (transformBeacons m bs)
        (candidateDists ref (transformBeacons m bs)) = some p := by
  induction ms with
  | nil => cases h
  | cons m ms ih =>
    simp only [tryMatrices] at h
    cases htd : tryDists ref (transformBeacons m bs)
        (candidateDists ref (transformBeacons m bs)) with
    | none =>
      rw [htd] at h
      obtain ⟨m1, hm1, hp⟩ := ih h
      exact ⟨m1, List.mem_cons_of_mem m hm1, hp⟩
    | some q =>
      rw [htd] at h
      cases h
      exact ⟨m, List.mem_cons_self m ms, htd⟩

theorem tryMatrices_map_fst (ref bs : List V3) (ms : List M3) :
    (tryMatrices ref bs ms).map Prod.fst =
      (ms.flatMap (fun m =>
        (candidateDists ref (transformBeacons m bs)).filter (fun d =>
          decide (12 ≤ overlapCount ref
            ((transformBeacons m bs).map (fun b => b.add d)))))).head? := by
  induction ms with
  | nil => rfl
  | cons m ms ih =>
    have hfst := tryDists_map_fst ref (transformBeacons m bs)
      (candidateDists ref (transformBeacons m bs))
    simp only [tryMatrices, List.flatMap_cons, List.head?_append]
    cases htd : tryDists ref (transformBeacons m bs)
        (candidateDists ref (transformBeacons m bs)) with
    | none =>
      rw [htd] at hfst
      rw [← hfst]
      simpa using ih
    | some p =>
      rw [htd] at hfst
      rw [← hfst]
      simp

/-- The translation returned by `try_update_scan` is the head of the
accepted-translations list. -/
theorem try_upd_fst (ref : List V3) (scan : Scan) :
    (try_update_scan ref scan).1 = (acceptedDists ref scan.beacons).head? := by
  have h := tryMatrices_map_fst ref scan.beacons CHANGE_OF_BASIS_MATRIXES
  unfold try_update_scan
  unfold acceptedDists
  cases hm : tryMatrices ref scan.beacons CHANGE_OF_BASIS_MATRIXES with
  | none =>
    rw [hm] at h
    simpa using h
  | some p =>
    rw [hm] at h
    cases p
    simpa using h

/-- On failure the reference set is returned unchanged. -/
theorem try_upd_none {ref : List V3} {scan : Scan}
    (h : (try_update_scan ref scan).1 = none) :
    (try_update_scan ref scan).2 = ref := by
  unfold try_update_scan at h ⊢
  cases hm : tryMatrices ref scan.beacons CHANGE_OF_BASIS_MATRIXES with
  | none => rfl
  | some p =>
    rw [hm] at h
    cases p
    cases h

/-- On success the reference set is extended with the transformed and
translated beacons of some orientation from the table, whose overlap
count reached the threshold. -/
theorem try_upd_some {ref : List V3} {scan : Scan} {d : V3}
    (h : (try_update_scan ref scan).1 = some d) :
    ∃ m, m ∈ CHANGE_OF_BASIS_MATRIXES ∧
      12 ≤ overlapCount ref ((transformBeacons m scan.beacons).map (fun b => b.add d)) ∧
      (try_update_scan ref scan).2 =
        hsExtend ref ((transformBeacons m scan.beacons).map (fun b => b.add d)) := by
  unfold try_update_scan at h ⊢
  cases hm : tryMatrices ref scan.beacons CHANGE_OF_BASIS_MATRIXES with
  | none =>
    rw [hm] at h
    cases h
  | some p =>
    rw [hm] at h
    obtain ⟨d0, r2⟩ := p
    obtain rfl : d0 = d := by simpa using h
    obtain ⟨m, hmem, htd⟩ := tryMatrices_eq_some hm
    obtain ⟨_, hcount, hr2⟩ := tryDists_eq_some htd
    exact ⟨m, hmem, hcount, by simpa using hr2⟩

/-! ### Claim theorems -/

/-- Claim C3: a registration attempt is atomic on the reference set — on
failure the reference set is exactly unchanged, and on success the new
reference set is exactly the old set unioned with all of the scan's
transformed-and-translated beacons. -/
theorem C3_registration_atomic (ref : List V3) (scan : Scan) :
    ((try_update_scan ref scan).1 = none → (try_update_scan ref scan).2 = ref) ∧
    (∀ d : V3, (try_update_scan ref scan).1 = some d →
      ∃ m, m ∈ CHANGE_OF_BASIS_MATRIXES ∧
        ∀ v : V3, v ∈ (try_update_scan ref scan).2 ↔
          (v ∈ ref ∨ v ∈ (transformBeacons m scan.beacons).map (fun b => b.add d))) := by
  constructor
  · exact try_upd_none
  · intro d hd
    obtain ⟨m, hm, _, hset⟩ := try_upd_some hd
    exact ⟨m, hm, fun v => by rw [hset, mem_hsExtend]⟩

/-- Witness for C3 at a concrete failing registration. -/
theorem C3_registration_atomic_witness :
    (try_update_scan [⟨0, 0, 0⟩] ⟨[⟨5, 5, 5⟩]⟩).2 = [⟨0, 0, 0⟩] :=
  (C3_registration_atomic [⟨0, 0, 0⟩] ⟨[⟨5, 5, 5⟩]⟩).1 (by decide)

/-- Claim C4: whenever the engine returns success with translation `d`,
some orientation `m` of the 24-matrix table has at least 12 of the
transformed-and-translated beacons already in the reference set, and the
new reference set is the old one unioned with all of them. -/
theorem C4_success_overlap (ref : List V3) (scan : Scan) (d : V3)
    (h : (try_update_scan ref scan).1 = some d) :
    ∃ m, m ∈ CHANGE_OF_BASIS_MATRIXES ∧
      12 ≤ overlapCount ref ((transformBeacons m scan.beacons).map (fun b => b.add d)) ∧
      ∀ v : V3, v ∈ (try_update_scan ref scan).2 ↔
        (v ∈ ref ∨ v ∈ (transformBeacons m scan.beacons).map (fun b => b.add d)) := by
  obtain ⟨m, hm, hc, hset⟩ := try_upd_some h
  exact ⟨m, hm, hc, fun v => by rw [hset, mem_hsExtend]⟩

/-- Witness for C4 at a concrete successful registration (a scan
identical to the seed, accepted with the zero translation). -/
theorem C4_success_overlap_witness :
    ∃ m, m ∈ CHANGE_OF_BASIS_MATRIXES ∧
      12 ≤ overlapCount (hsOfList B0)
        ((transformBeacons m B0).map (fun b => b.add V3.zero)) ∧
      ∀ v : V3, v ∈ (try_update_scan (hsOfList B0) ⟨B0⟩).2 ↔
        (v ∈ hsOfList B0 ∨ v ∈ (transformBeacons m B0).map (fun b => b.add V3.zero)) :=
  C4_success_overlap (hsOfList B0) ⟨B0⟩ V3.zero (by decide)

/-- Claim C6: the Global Map only grows — every beacon in the reference
set before a registration attempt is still there after it, and the number
of distinct beacons is non-decreasing. -/
theorem C6_reference_monotone (ref : List V3) (scan : Scan) :
    (∀ v : V3, v ∈ ref → v ∈ (try_update_scan ref scan).2) ∧
    ref.toFinset.card ≤ (try_update_scan ref scan).2.toFinset.card := by
  have hsub : ∀ v : V3, v ∈ ref → v ∈ (try_update_scan ref scan).2 := by
    intro v hv
    cases h1 : (try_update_scan ref scan).1 with
    | none => rw [try_upd_none h1]; exact hv
    | some d =>
      obtain ⟨m, _, _, hset⟩ := try_upd_some h1
      rw [hset, mem_hsExtend]
      exact Or.inl hv
  refine ⟨hsub, Finset.card_le_card ?_⟩
  intro v hv
  simp only [List.mem_toFinset] at hv ⊢
  exact hsub v hv

/-- Witness for C6 at a concrete input. -/
theorem C6_reference_monotone_witness :
    (⟨0, 0, 0⟩ : V3) ∈ (try_update_scan [⟨0, 0, 0⟩] ⟨[]⟩).2 :=
  (C6_reference_monotone [⟨0, 0, 0⟩] ⟨[]⟩).1 ⟨0, 0, 0⟩ (by decide)

/-- Claim C8: the search is greedy accept-first-match — the returned
translation is the first element, in orientation-table-major then
candidate-translation order, of the list of translations whose overlap
count reaches the threshold. -/
theorem C8_greedy_first_match (ref : List V3) (scan : Scan) :
    (try_update_scan ref scan).1 = (acceptedDists ref scan.beacons).head? :=
  try_upd_fst ref scan

/-- Claim C10: against an empty reference set the engine fails for every
candidate scan and the reference set stays empty. -/
theorem C10_empty_reference (scan : Scan) :
    try_update_scan [] scan = (none, []) := by
  have h : ∀ (ms : List M3) (bs : List V3), tryMatrices [] bs ms = none := by
    intro ms
    induction ms with
    | nil => intro bs; rfl
    | cons m ms ih =>
      intro bs
      simp only [tryMatrices]
      have hc : candidateDists [] (transformBeacons m bs) = [] := rfl
      rw [hc]
      exact ih bs
  unfold try_update_scan
  rw [h]

/-! ### The orientation table is exactly the rotation group of the cube -/

/-- An integer vector of squared norm 1 is a signed standard basis
vector. -/
theorem unit_vector_mem (x y z : Int) (h : x * x + y * y + z * z = 1) :
    (⟨x, y, z⟩ : V3) ∈ unitCols := by
  have hx : x * x ≤ 1 := by nlinarith [mul_self_nonneg y, mul_self_nonneg z]
  have hy : y * y ≤ 1 := by nlinarith [mul_self_nonneg x, mul_self_nonneg z]
  have hz : z * z ≤ 1 := by nlinarith [mul_self_nonneg x, mul_self_nonneg y]
  have hx1 : x ≤ 1 := by nlinarith [mul_self_nonneg (x - 1)]
  have hx2 : -1 ≤ x := by nlinarith [mul_self_nonneg (x + 1)]
  have hy1 : y ≤ 1 := by nlinarith [mul_self_nonneg (y - 1)]
  have hy2 : -1 ≤ y := by nlinarith [mul_self_nonneg (y + 1)]
  have hz1 : z ≤ 1 := by nlinarith [mul_self_nonneg (z - 1)]
  have hz2 : -1 ≤ z := by nlinarith [mul_self_nonneg (z + 1)]
  interval_cases x <;> interval_cases y <;> interval_cases z <;> revert h <;> decide

/-- Any integer matrix with orthonormal columns has its three columns
among the signed standard basis vectors, hence lies in the 216-element
candidate list. -/
theorem orth_mem_candidates (m : M3) (h : M3.mul m.transpose m = M3.one) :
    m ∈ orthCandidates := by
  have ha : m.a * m.a + m.d * m.d + m.g * m.g = 1 := by
    have := congrArg M3.a h
    simpa [M3.mul, M3.transpose, M3.one] using this
  have he : m.b * m.b + m.e * m.e + m.h * m.h = 1 := by
    have := congrArg M3.e h
    simpa [M3.mul, M3.transpose, M3.one] using this
  have hi : m.c * m.c + m.f * m.f + m.i * m.i = 1 := by
    have := congrArg M3.i h
    simpa [M3.mul, M3.transpose, M3.one] using this
  have h1 : (⟨m.a, m.d, m.g⟩ : V3) ∈ unitCols := unit_vector_mem _ _ _ ha
  have h2 : (⟨m.b, m.e, m.h⟩ : V3) ∈ unitCols := unit_vector_mem _ _ _ he
  have h3 : (⟨m.c, m.f, m.i⟩ : V3) ∈ unitCols := unit_vector_mem _ _ _ hi
  have hm : m = M3.ofCols ⟨m.a, m.d, m.g⟩ ⟨m.b, m.e, m.h⟩ ⟨m.c, m.f, m.i⟩ := by
    cases m
    rfl
  rw [hm]
  unfold orthCandidates
  exact List.mem_flatMap.mpr ⟨_, h1,
    List.mem_flatMap.mpr ⟨_, h2, List.mem_map.mpr ⟨_, h3, rfl⟩⟩⟩

set_option maxRecDepth 40000 in
/-- Every candidate matrix that is orthogonal with determinant `+1` is in
the table (checked by enumeration over the 216 candidates). -/
theorem candidates_det_one_in_table :
    ∀ m ∈ orthCandidates,
      (M3.mul m.transpose m = M3.one ∧ M3.det m = 1) →
        m ∈ CHANGE_OF_BASIS_MATRIXES := by
  decide

/-- Every matrix of the table is orthogonal with determinant `+1`. -/
theorem table_matrices_rotations :
    ∀ m ∈ CHANGE_OF_BASIS_MATRIXES,
      M3.mul m.transpose m = M3.one ∧ M3.det m = 1 := by
  decide

/-- Claim C5: the orientation table holds exactly 24 pairwise-distinct
matrices, and a 3x3 integer matrix is in the table if and only if it is
orthogonal (a signed axis permutation) with determinant `+1` — i.e. the
table is exactly the rotation group of the cube. -/
theorem C5_orientation_table :
    CHANGE_OF_BASIS_MATRIXES.length = 24 ∧
    CHANGE_OF_BASIS_MATRIXES.Nodup ∧
    ∀ m : M3, (M3.mul m.transpose m = M3.one ∧ M3.det m = 1) ↔
      m ∈ CHANGE_OF_BASIS_MATRIXES := by
  refine ⟨by decide, by decide, fun m => ⟨fun hm => ?_, fun hm => ?_⟩⟩
  · exact candidates_det_one_in_table m (orth_mem_candidates m hm.1) hm
  · exact table_matrices_rotations m hm

/-- Witness for C5: the identity matrix is a rotation, hence in the
table. -/
theorem C5_orientation_table_witness :
    M3.one ∈ CHANGE_OF_BASIS_MATRIXES :=
  (C5_orientation_table.2.2 M3.one).mp (by decide)

/-! ### Self-registration -/

theorem one_mulVec (v : V3) : M3.mulVec ⟨1, 0, 0, 0, 1, 0, 0, 0, 1⟩ v = v := by
  cases v
  simp [M3.mulVec]

theorem transformBeacons_one (bs : List V3) :
    transformBeacons ⟨1, 0, 0, 0, 1, 0, 0, 0, 1⟩ bs = bs := by
  simp [transformBeacons, one_mulVec]

theorem add_zero_v (v : V3) : V3.add v V3.zero = v := by
  cases v
  simp [V3.add, V3.zero]

theorem sub_self_v (v : V3) : V3.sub v v = V3.zero := by
  cases v
  simp [V3.sub, V3.zero]

/-- The zero translation is accepted for the identity orientation when a
scan with at least 12 beacon entries is registered against its own beacon
set, so the accepted-translations list is non-empty. -/
theorem acceptedDists_self_ne_nil (scan : Scan) (h : 12 ≤ scan.beacons.length) :
    acceptedDists (hsOfList scan.beacons) scan.beacons ≠ [] := by
  intro hnil
  have hne : scan.beacons ≠ [] := by
    intro he
    rw [he] at h
    simp at h
  obtain ⟨b, bs, hbs⟩ := List.exists_cons_of_ne_nil hne
  have hbmem : b ∈ scan.beacons := by rw [hbs]; exact List.mem_cons_self b bs
  have hbref : b ∈ hsOfList scan.beacons := (mem_hsOfList _ _).mpr hbmem
  have hzero_cand : V3.zero ∈ candidateDists (hsOfList scan.beacons)
      (transformBeacons ⟨1, 0, 0, 0, 1, 0, 0, 0, 1⟩ scan.beacons) := by
    rw [transformBeacons_one]
    exact List.mem_flatMap.mpr ⟨b, hbref,
      List.mem_map.mpr ⟨b, hbmem, sub_self_v b⟩⟩
  have hcount : 12 ≤ overlapCount (hsOfList scan.beacons)
      ((transformBeacons ⟨1, 0, 0, 0, 1, 0, 0, 0, 1⟩ scan.beacons).map
        (fun v => v.add V3.zero)) := by
    rw [transformBeacons_one]
    have hmap : scan.beacons.map (fun v => v.add V3.zero) = scan.beacons := by
      simp [add_zero_v]
    rw [hmap]
    have : overlapCount (hsOfList scan.beacons) scan.beacons =
        scan.beacons.length := by
      unfold overlapCount
      rw [List.countP_eq_length]
      intro a ha
      exact decide_eq_true ((mem_hsOfList _ _).mpr ha)
    rw [this]
    exact h
  have hzmem : V3.zero ∈ acceptedDists (hsOfList scan.beacons) scan.beacons := by
    unfold acceptedDists
    refine List.mem_flatMap.mpr ⟨⟨1, 0, 0, 0, 1, 0, 0, 0, 1⟩, by decide, ?_⟩
    exact List.mem_filter.mpr ⟨hzero_cand, decide_eq_true hcount⟩
  rw [hnil] at hzmem
  cases hzmem

/-- Claim C7 counterexample: the claim fails as stated — a scan holding a
single beacon, registered against a reference equal to its own beacon
set, fails (its overlap count can reach at most 1, below the threshold of
12). -/
theorem C7_counterexample :
    (try_update_scan (hsOfList [⟨0, 0, 0⟩]) ⟨[⟨0, 0, 0⟩]⟩).1 = none := by
  decide

/-- Claim C7 (amended): for every scan with at least 12 beacon entries,
registering it against a reference set equal to its own beacon set
succeeds — the identity orientation with the zero translation makes every
beacon match. -/
theorem C7_self_registration (scan : Scan) (h : 12 ≤ scan.beacons.length) :
    ∃ d : V3, (try_update_scan (hsOfList scan.beacons) scan).1 = some d := by
  rw [try_upd_fst]
  cases hh : (acceptedDists (hsOfList scan.beacons) scan.beacons).head? with
  | none =>
    rw [List.head?_eq_none_iff] at hh
    exact absurd hh (acceptedDists_self_ne_nil scan h)
  | some d => exact ⟨d, rfl⟩

/-- Witness for C7 (amended) at the concrete 12-beacon cloud `B0`. -/
theorem C7_self_registration_witness :
    ∃ d : V3, (try_update_scan (hsOfList B0) ⟨B0⟩).1 = some d :=
  C7_self_registration ⟨B0⟩ (by decide)

/-! ### The maximum distance omits scanner 0's zero offset -/

/-- Claim C1: in the three-scanner example the reconstruction succeeds,
recording the offsets `t2` and `t1` for the two non-seed scanners, and
the program returns maximum distance 1 — the pair maximum over the
recorded offsets only.  The spec-side maximum over all resolved offsets,
scanner 0's zero offset included, is 1001: the code omits the zero
offset, so pairs involving scanner 0 are not included. -/
theorem C1_zero_offset_omitted :
    part1_2 1 scansEx = some (12, 1) ∧
    (loop 1 (hsOfList B0)
      [⟨B0.map (fun b => b.sub t1)⟩, ⟨B0.map (fun b => b.sub t2)⟩] []).map
        Prod.snd = some [t2, t1] ∧
    specMaxPairDist (V3.zero :: [t2, t1]) = some 1001 := by
  refine ⟨by decide, by decide, by decide⟩

/-! ### Non-termination on an unregistrable input -/

/-- A single far-away beacon can never reach 12 overlaps against the
one-beacon seed set, and the reference set is left unchanged. -/
theorem disjoint_try_fails :
    try_update_scan [⟨0, 0, 0⟩] ⟨[⟨1000, 1000, 1000⟩]⟩ =
      (none, [⟨0, 0, 0⟩]) := by
  decide

/-- On the disjoint two-scanner input the builder loop never finishes,
whatever the number of rounds: each round makes no progress and the
state repeats verbatim. -/
theorem disjoint_loop_never_done (n : Nat) :
    loop n [⟨0, 0, 0⟩] [⟨[⟨1000, 1000, 1000⟩]⟩] [] = none := by
  induction n with
  | zero => rfl
  | succ k ih =>
    have hred : loop (k + 1) [⟨0, 0, 0⟩] [⟨[⟨1000, 1000, 1000⟩]⟩] [] =
        loop k [⟨0, 0, 0⟩] [⟨[⟨1000, 1000, 1000⟩]⟩] [] := rfl
    rw [hred]
    exact ih

/-- Claim C2: on a two-scanner input with no shared beacons, the program
does not terminate — no amount of fuel completes the `while` loop (the
code has no stuck detection, contradicting the spec's STUCK state). -/
theorem C2_disjoint_input_loops_forever (fuel : Nat) :
    part1_2 fuel scansDisjoint = none := by
  have hpart : part1_2 fuel scansDisjoint =
      (match loop fuel (hsOfList [⟨0, 0, 0⟩]) [⟨[⟨1000, 1000, 1000⟩]⟩] [] with
       | none => none
       | some (ref, dists) =>
         match (pairDists dists).max? with
         | none => none
         | some m => some (ref.length, m)) := rfl
  rw [hpart]
  rw [show hsOfList [(⟨0, 0, 0⟩ : V3)] = [⟨0, 0, 0⟩] from rfl]
  rw [disjoint_loop_never_done fuel]

/-! ### Small inputs never produce a result -/

theorem swapRemove_length {l : List Scan} {i : Nat} (h : i < l.length) :
    (swapRemove l i).length = l.length - 1 := by
  unfold swapRemove
  cases hl : l.getLast? with
  | none =>
    rw [List.getLast?_eq_none_iff] at hl
    subst hl
    simp at h
  | some last =>
    simp

/-- Each round conserves the sum of recorded translations and remaining
scans: a scan is deleted exactly when a translation is recorded. -/
theorem roundGo_conservation (n : Nat) :
    ∀ (ref : List V3) (scans : List Scan) (dists : List V3),
      (roundGo n ref scans dists).2.2.length + (roundGo n ref scans dists).2.1.length =
        dists.length + scans.length := by
  induction n with
  | zero => intro ref scans dists; rfl
  | succ k ih =>
    intro ref scans dists
    simp only [roundGo]
    split
    · exact ih ref scans dists
    · rename_i s hs
      split
      · rename_i d r2 ht
        have hk : k < scans.length := by
          by_contra hk
          rw [List.getElem?_eq_none (by omega)] at hs
          cases hs
        have hrec := ih r2 (swapRemove scans k) (dists ++ [d])
        rw [hrec, swapRemove_length hk, List.length_append]
        simp only [List.length_singleton]
        omega
      · exact ih ref scans dists

theorem loop_dists_bound (fuel : Nat) :
    ∀ (ref : List V3) (scans : List Scan) (dists r ds : List V3),
      loop fuel ref scans dists = some (r, ds) →
        ds.length ≤ dists.length + scans.length := by
  induction fuel with
  | zero =>
    intro ref scans dists r ds h
    cases scans with
    | nil =>
      obtain ⟨rfl, rfl⟩ : ref = r ∧ dists = ds := by
        simpa [loop] using h
      simp
    | cons s ss => cases h
  | succ k ih =>
    intro ref scans dists r ds h
    cases scans with
    | nil =>
      obtain ⟨rfl, rfl⟩ : ref = r ∧ dists = ds := by
        simpa [loop] using h
      simp
    | cons s ss =>
      simp only [loop] at h
      cases ho : oneRound ref (s :: ss) dists with
      | mk a bc =>
        cases bc with
        | mk b c =>
          rw [ho] at h
          have h2 := ih a b c r ds h
          have h3 := roundGo_conservation (s :: ss).length ref (s :: ss) dists
          unfold oneRound at ho
          rw [ho] at h3
          simp only [List.length_cons] at h3 ⊢
          omega

/-- Claim C9: with fewer than three scans the combined computation never
returns a result pair — an empty input hits the seed-removal panic, and
with one or two scans at most one translation is recorded, so the
maximum over translation pairs is taken over an empty sequence. -/
theorem C9_small_inputs (fuel : Nat) (scans : List Scan) (h : scans.length < 3) :
    part1_2 fuel scans = none := by
  cases scans with
  | nil => rfl
  | cons s0 rest =>
    have hpart : part1_2 fuel (s0 :: rest) =
        (match loop fuel (hsOfList s0.beacons) rest [] with
         | none => none
         | some (ref, dists) =>
           match (pairDists dists).max? with
           | none => none
           | some m => some (ref.length, m)) := rfl
    rw [hpart]
    cases hl : loop fuel (hsOfList s0.beacons) rest [] with
    | none => rfl
    | some p =>
      obtain ⟨refF, dists⟩ := p
      have hb := loop_dists_bound fuel _ rest [] refF dists hl
      have hrest : rest.length ≤ 1 := by
        simp at h
        omega
      match dists, hb with
      | [], _ => rfl
      | [d], _ => rfl
      | d :: e :: ds, hb => simp at hb; omega

/-- Witness for C9 at a concrete one-scan input. -/
theorem C9_small_inputs_witness : part1_2 1 [(⟨B0⟩ : Scan)] = none :=
  C9_small_inputs 1 [⟨B0⟩] (by decide)

end Day19
